import Mathlib

/-!
Verification development for the `typescript-estree` parser front end.

The development shallowly embeds `src/parser.js` (the `generateAST` / `parse`
entry points) together with models of the two collaborators that the claims
depend on but whose sources are not part of the repository snapshot:
the project-configuration resolver (`lib/tsconfig-parser`) and the AST
converter (`lib/ast-converter`).  Those two are modelled from the
specification and are marked as such in their doc comments.

JavaScript runtime values that the parser inspects dynamically (`typeof`,
truthiness, `String(...)` coercion, `Array.isArray`) are modelled by the
`JSValue` inductive below.
-/

namespace TSEstree

/-- Model of the JavaScript values that `src/parser.js` inspects dynamically.
Functions are represented by an opaque numeric tag; objects by their
(own, enumerable) property list. -/
inductive JSValue where
  | vString (s : String)
  | vNumber (n : Int)
  | vBool (b : Bool)
  | vNull
  | vUndefined
  | vArray (elems : List JSValue)
  | vObject (props : List (String × JSValue))
  | vFunction (fid : Nat)

mutual

/-- Boolean structural equality on `JSValue` (used to build `DecidableEq`). -/
def JSValue.beq : JSValue → JSValue → Bool
  | .vString a, .vString b => a == b
  | .vNumber a, .vNumber b => a == b
  | .vBool a, .vBool b => a == b
  | .vNull, .vNull => true
  | .vUndefined, .vUndefined => true
  | .vArray a, .vArray b => JSValue.beqList a b
  | .vObject a, .vObject b => JSValue.beqProps a b
  | .vFunction a, .vFunction b => a == b
  | _, _ => false

def JSValue.beqList : List JSValue → List JSValue → Bool
  | [], [] => true
  | a :: as, b :: bs => JSValue.beq a b && JSValue.beqList as bs
  | _, _ => false

def JSValue.beqProps : List (String × JSValue) → List (String × JSValue) → Bool
  | [], [] => true
  | (k1, v1) :: as, (k2, v2) :: bs => k1 == k2 && JSValue.beq v1 v2 && JSValue.beqProps as bs
  | _, _ => false

end

mutual

theorem JSValue.jsBeq_iff : ∀ a b : JSValue, JSValue.beq a b = true ↔ a = b
  | .vString a, b => by
    cases b <;> simp [JSValue.beq]
  | .vNumber a, b => by
    cases b <;> simp [JSValue.beq]
  | .vBool a, b => by
    cases b <;> simp [JSValue.beq]
  | .vNull, b => by
    cases b <;> simp [JSValue.beq]
  | .vUndefined, b => by
    cases b <;> simp [JSValue.beq]
  | .vArray a, b => by
    cases b <;> simp [JSValue.beq]
    exact JSValue.jsBeqList_iff a _
  | .vObject a, b => by
    cases b <;> simp [JSValue.beq]
    exact JSValue.jsBeqProps_iff a _
  | .vFunction a, b => by
    cases b <;> simp [JSValue.beq]

theorem JSValue.jsBeqList_iff : ∀ as bs : List JSValue, JSValue.beqList as bs = true ↔ as = bs
  | [], [] => by simp [JSValue.beqList]
  | [], _ :: _ => by simp [JSValue.beqList]
  | _ :: _, [] => by simp [JSValue.beqList]
  | a :: as, b :: bs => by
    simp only [JSValue.beqList, Bool.and_eq_true, List.cons.injEq]
    exact and_congr (JSValue.jsBeq_iff a b) (JSValue.jsBeqList_iff as bs)

theorem JSValue.jsBeqProps_iff :
    ∀ as bs : List (String × JSValue), JSValue.beqProps as bs = true ↔ as = bs
  | [], [] => by simp [JSValue.beqProps]
  | [], _ :: _ => by simp [JSValue.beqProps]
  | _ :: _, [] => by simp [JSValue.beqProps]
  | (k1, v1) :: as, (k2, v2) :: bs => by
    simp only [JSValue.beqProps, Bool.and_eq_true, beq_iff_eq, List.cons.injEq,
      Prod.mk.injEq, and_assoc]
    exact and_congr Iff.rfl (and_congr (JSValue.jsBeq_iff v1 v2) (JSValue.jsBeqProps_iff as bs))

end

instance : DecidableEq JSValue := fun a b =>
  decidable_of_iff (JSValue.beq a b = true) (JSValue.jsBeq_iff a b)

/-- JavaScript `typeof` operator on the modelled values. -/
def typeofJS : JSValue → String
  | .vString _ => "string"
  | .vNumber _ => "number"
  | .vBool _ => "boolean"
  | .vNull => "object"
  | .vUndefined => "undefined"
  | .vArray _ => "object"
  | .vObject _ => "object"
  | .vFunction _ => "function"

/-- JavaScript truthiness of the modelled values (NaN is not modelled). -/
def truthy : JSValue → Bool
  | .vString s => !(s == "")
  | .vNumber n => !(n == 0)
  | .vBool b => b
  | .vNull => false
  | .vUndefined => false
  | .vArray _ => true
  | .vObject _ => true
  | .vFunction _ => true

/-- The guard pattern used throughout `generateAST` for strict boolean
options: `typeof v === "boolean" && v`. -/
def strictBool : JSValue → Bool
  | .vBool b => b
  | _ => false

mutual

/-- JavaScript `String(...)` conversion on the modelled values.  A function
stringifies to an opaque marker (real engines print the source text). -/
def jsToString : JSValue → String
  | .vString s => s
  | .vNumber n => toString n
  | .vBool b => if b then "true" else "false"
  | .vNull => "null"
  | .vUndefined => "undefined"
  | .vArray xs => String.intercalate "," (jsArrayElems xs)
  | .vObject _ => "[object Object]"
  | .vFunction fid => "function#" ++ toString fid

/-- Element stringification for `Array.prototype.toString`: `null` and
`undefined` elements become the empty string. -/
def jsArrayElems : List JSValue → List String
  | [] => []
  | x :: xs =>
    (match x with
     | .vNull => ""
     | .vUndefined => ""
     | v => jsToString v) :: jsArrayElems xs

end

/-- Property access `v[name]`; non-objects (as far as this parser reads
them) yield `undefined`. -/
def getProp (v : JSValue) (name : String) : JSValue :=
  match v with
  | .vObject props =>
    match props.find? (fun p => p.1 == name) with
    | some p => p.2
    | none => .vUndefined
  | _ => .vUndefined

/-- Extract the underlying string of a `vString` (callers establish that the
value is a string before using this). -/
def asString : JSValue → String
  | .vString s => s
  | _ => ""

/-- The options object accepted by `parse` (`src/parser.js` lines 68-121).
An absent property is `vUndefined`, exactly as in JavaScript. -/
structure OptionsObj where
  range : JSValue := .vUndefined
  loc : JSValue := .vUndefined
  source : JSValue := .vUndefined
  tokens : JSValue := .vUndefined
  comment : JSValue := .vUndefined
  tolerant : JSValue := .vUndefined
  ecmaFeatures : JSValue := .vUndefined
  errorOnUnknownASTType : JSValue := .vUndefined
  useJSXTextNode : JSValue := .vUndefined
  loggerFn : JSValue := .vUndefined
  project : JSValue := .vUndefined
  filePath : JSValue := .vUndefined
deriving DecidableEq

/-- The logging function stored in `extra.log`: `console.log`, a
caller-supplied function, or the no-op `Function.prototype`
(`src/parser.js` lines 44, 107-111). -/
inductive Logger where
  | consoleLog
  | customFn (fid : Nat)
  | noop
deriving DecidableEq, Repr

/-- A node of the compiler's native tree (a `ts.Node`): a `SyntaxKind` tag,
the character span, and the child nodes in source order.  The tree shape is
all the embedded code reads of it. -/
inductive NativeNode where
  | node (kind : String) (pos : Nat) (endPos : Nat) (children : List NativeNode)

mutual

/-- Boolean structural equality on `NativeNode`. -/
def NativeNode.beq : NativeNode → NativeNode → Bool
  | .node k1 p1 e1 c1, .node k2 p2 e2 c2 =>
    k1 == k2 && p1 == p2 && e1 == e2 && NativeNode.beqList c1 c2

def NativeNode.beqList : List NativeNode → List NativeNode → Bool
  | [], [] => true
  | a :: as, b :: bs => NativeNode.beq a b && NativeNode.beqList as bs
  | _, _ => false

end

mutual

theorem NativeNode.nativeBeq_iff : ∀ a b : NativeNode, NativeNode.beq a b = true ↔ a = b
  | .node k1 p1 e1 c1, .node k2 p2 e2 c2 => by
    simp only [NativeNode.beq, Bool.and_eq_true, beq_iff_eq, NativeNode.node.injEq, and_assoc]
    exact and_congr Iff.rfl (and_congr Iff.rfl
      (and_congr Iff.rfl (NativeNode.nativeBeqList_iff c1 c2)))

theorem NativeNode.nativeBeqList_iff :
    ∀ as bs : List NativeNode, NativeNode.beqList as bs = true ↔ as = bs
  | [], [] => by simp [NativeNode.beqList]
  | [], _ :: _ => by simp [NativeNode.beqList]
  | _ :: _, [] => by simp [NativeNode.beqList]
  | a :: as, b :: bs => by
    simp only [NativeNode.beqList, Bool.and_eq_true, List.cons.injEq]
    exact and_congr (NativeNode.nativeBeq_iff a b) (NativeNode.nativeBeqList_iff as bs)

end

instance : DecidableEq NativeNode := fun a b =>
  decidable_of_iff (NativeNode.beq a b = true) (NativeNode.nativeBeq_iff a b)

/-- The per-call configuration snapshot, mirroring the module-level `extra`
object of `src/parser.js` (lines 32-47).  `tokens` is `none` for the initial
`null` and `some` once line 77 replaces it with an array; `comments`,
`errors` hold opaque collected items. -/
structure Extra where
  tokens : Option (List Nat)
  range : Bool
  loc : Bool
  comment : Bool
  comments : List Nat
  tolerant : Bool
  errors : List Nat
  strict : Bool
  ecmaFeaturesJsx : JSValue
  useJSXTextNode : Bool
  log : Logger
  project : List String
  source : Option String
  errorOnUnknownASTType : Bool
  code : Option String
deriving DecidableEq

/-- `resetExtra` (`src/parser.js` lines 32-47): the state of `extra` at the
start of every call.  `ecmaFeatures: {}` has no `jsx` property, hence
`vUndefined`; the fields `errorOnUnknownASTType`, `source` and `code` are
absent from the literal, i.e. `undefined`. -/
def resetExtra : Extra :=
  { tokens := none
    range := false
    loc := false
    comment := false
    comments := []
    tolerant := false
    errors := []
    strict := false
    ecmaFeaturesJsx := .vUndefined
    useJSXTextNode := false
    log := .consoleLog
    project := []
    source := none
    errorOnUnknownASTType := false
    code := none }

/-- The `project` normalization of `src/parser.js` lines 113-120: a string
becomes a one-element list; an array is accepted only when every element is
a string; anything else leaves the previous value of `extra.project`. -/
def projectUpdate (v : JSValue) (prev : List String) : List String :=
  if typeofJS v == "string" then [asString v]
  else
    match v with
    | .vArray xs => if xs.all (fun x => typeofJS x == "string") then xs.map asString else prev
    | _ => prev

/-- The validated project list as seen after `resetExtra` (whose `project`
is `[]`). -/
def validatedProject (v : JSValue) : List String :=
  projectUpdate v []

/-- The option-processing block of `generateAST` (`src/parser.js` lines
68-121).  The source assigns the fields of `extra` one statement at a time;
every assignment reads only `options` and the just-assigned `extra.loc`, so
the block is written here as one simultaneous record update (`extra.loc` in
the line-72 guard is replaced by its just-assigned value
`strictBool o.loc`). -/
def applyOptions (e : Extra) (options : Option OptionsObj) : Extra :=
  match options with
  | none => e
  | some o =>
    { e with
      range := strictBool o.range
      loc := strictBool o.loc
      source :=
        if strictBool o.loc && !(o.source == JSValue.vNull)
            && !(o.source == JSValue.vUndefined) then
          some (jsToString o.source)
        else e.source
      tokens := if strictBool o.tokens then some [] else e.tokens
      comment := if strictBool o.comment then true else e.comment
      comments := if strictBool o.comment then [] else e.comments
      errors := if strictBool o.tolerant then [] else e.errors
      ecmaFeaturesJsx :=
        if truthy o.ecmaFeatures && typeofJS o.ecmaFeatures == "object" then
          getProp o.ecmaFeatures "jsx"
        else e.ecmaFeaturesJsx
      errorOnUnknownASTType :=
        if truthy o.errorOnUnknownASTType then true else e.errorOnUnknownASTType
      useJSXTextNode := if strictBool o.useJSXTextNode then true else e.useJSXTextNode
      log :=
        if typeofJS o.loggerFn == "function" then
          match o.loggerFn with
          | .vFunction fid => .customFn fid
          | _ => .consoleLog
        else if o.loggerFn == JSValue.vBool false then .noop
        else e.log
      project := projectUpdate o.project e.project }

/-- `resetExtra()` followed by the option-processing block: the value of
`extra` when `generateAST` reaches line 138. -/
def buildExtra (options : Option OptionsObj) : Extra :=
  applyOptions resetExtra options

theorem buildExtra_project (o : OptionsObj) :
    (buildExtra (some o)).project = validatedProject o.project := rfl

/-- The structured failure conditions of a `parse` call: the three fatal
configuration-stage errors of spec section 7 (`ProjectNotFound`,
`ProjectReadFailure`, `ProjectMalformed`) and the strict-mode conversion
error (`UnsupportedNodeKind`). -/
inductive ParseErr where
  | projectNotFound (path : String)
  | projectReadFailure (path : String)
  | projectMalformed (path : String)
  | unsupportedNodeKind (kind : String)
deriving DecidableEq, Repr

/-- A compiler `Program` (analysis unit): the source files it analyzed,
keyed by file name.  `getSourceFile` below is all that `generateAST`
queries of it. -/
structure Program where
  sourceFiles : List (String × NativeNode)
deriving DecidableEq

/-- `program.getSourceFile(fileName)` (`src/parser.js` line 150).  The
argument is `options.filePath`, a raw JavaScript value; only a string can
match a stored file name. -/
def Program.getSourceFile (p : Program) (filePath : JSValue) : Option NativeNode :=
  (p.sourceFiles.find? (fun sf => JSValue.vString sf.1 == filePath)).map (fun sf => sf.2)

/-- An entry of the modelled file system: a readable file with its text
content, or a directory (readable as neither). -/
inductive FSEntry where
  | file (content : String)
  | directory
deriving DecidableEq

/-- The resolved content of one project-configuration file: the absolute
file list the external configuration-syntax collaborator returns
(spec section 6). -/
structure ConfigData where
  fileNames : List String
deriving DecidableEq

/-- The external collaborators of the parser, supplied as an explicit
environment: the file system, the configuration-syntax front end (returns
`none` on syntactically invalid content), the compiler's source-file parser
`ts.createSourceFile(fileName, code)`, and the semver check of
`src/parser.js` lines 17-23. -/
structure ParseEnv where
  fs : String → Option FSEntry
  parseConfig : String → Option ConfigData
  createSourceFile : String → String → NativeNode
  tsVersionSupported : Bool

/-- Content of a file-system path, empty when absent or a directory. -/
def readFileContent (env : ParseEnv) (path : String) : String :=
  match env.fs path with
  | some (.file c) => c
  | _ => ""

/-- Modelled from the spec: construction of a fresh `Program` from a parsed
configuration, spec section 4.3 step 2 — resolve the configuration's file
list and parse each listed file (`lib/tsconfig-parser` is not under
`src/`). -/
def buildProgram (env : ParseEnv) (cfg : ConfigData) : Program :=
  { sourceFiles := cfg.fileNames.map (fun f => (f, env.createSourceFile f (readFileContent env f))) }

/-- Modelled from the spec: resolution of a single project-configuration
path, spec sections 4.3 and 7 (`lib/tsconfig-parser` is not under `src/`).
A missing path is `ProjectNotFound`; an unreadable entry such as a
directory is `ProjectReadFailure`; syntactically invalid content is
`ProjectMalformed`; otherwise a fresh `Program` is built.  All three
failures are fatal structured errors. -/
def resolveConfig (env : ParseEnv) (path : String) : Except ParseErr Program :=
  match env.fs path with
  | none => .error (.projectNotFound path)
  | some .directory => .error (.projectReadFailure path)
  | some (.file content) =>
    match env.parseConfig content with
    | none => .error (.projectMalformed path)
    | some cfg => .ok (buildProgram env cfg)

/-- Modelled from the spec: the Project Resolution Engine,
`resolve(filePath, sourceText, projectConfigPaths)` of spec section 4.3
(`lib/tsconfig-parser` is not under `src/`), composed with its consumer,
the selection loop of `src/parser.js` lines 149-156.  The spec makes the
Program sequence lazily evaluated in configuration-list order and has the
engine check each resolved Program for an analysis unit for `filePath` —
"if yes, yield it and stop; if no, continue" — while the `for…of` loop
with `break` in parser.js pulls one Program at a time.  In a pure
embedding that laziness is observable only through which configuration
paths get resolved, so the lazy sequence and its first-match consumer are
modelled as one recursion: resolve each path in caller order (each
resolution failure fatal, spec section 7), stop at the first resolved
Program containing `filePath`, never resolving any later path.  The
`code` argument mirrors the collaborator's signature and is unused by the
model. -/
def resolveProject (env : ParseEnv) (code : String) (filePath : JSValue) :
    List String → Except ParseErr (Option (Program × NativeNode))
  | [] => .ok none
  | p :: ps =>
    match resolveConfig env p with
    | .error e => .error e
    | .ok prog =>
      match prog.getSourceFile filePath with
      | some t => .ok (some (prog, t))
      | none => resolveProject env code filePath ps

/-- The program-selection loop of `generateAST` (`src/parser.js` lines
149-156): walk the resolved programs in order, return the first one whose
`getSourceFile(filePath)` is defined, together with that source file. -/
def findRelevantProgram (filePath : JSValue) : List Program → Option (Program × NativeNode)
  | [] => none
  | p :: ps =>
    match p.getSourceFile filePath with
    | some t => some (p, t)
    | none => findRelevantProgram filePath ps

/-- A node of the generic (ESTree-shaped) output tree: an arena handle
`nodeId` modelling JavaScript object identity, the generic kind tag
`type`, the optional `[start, end)` range, and the child nodes.  Kind
specific non-node fields are not modelled; they play no part in the
claims. -/
inductive GenericNode where
  | mk (nodeId : Nat) (type : String) (range : Option (Nat × Nat)) (children : List GenericNode)

/-- The arena handle of a generic node (its object identity). -/
def GenericNode.nodeId : GenericNode → Nat
  | .mk i _ _ _ => i

/-- The generic kind tag of a generic node. -/
def GenericNode.type : GenericNode → String
  | .mk _ t _ _ => t

/-- The range annotation of a generic node. -/
def GenericNode.range : GenericNode → Option (Nat × Nat)
  | .mk _ _ r _ => r

/-- The child list of a generic node. -/
def GenericNode.children : GenericNode → List GenericNode
  | .mk _ _ _ cs => cs

mutual

/-- Boolean structural equality on `GenericNode`. -/
def GenericNode.beq : GenericNode → GenericNode → Bool
  | .mk i1 t1 r1 c1, .mk i2 t2 r2 c2 =>
    i1 == i2 && t1 == t2 && r1 == r2 && GenericNode.beqList c1 c2

def GenericNode.beqList : List GenericNode → List GenericNode → Bool
  | [], [] => true
  | a :: as, b :: bs => GenericNode.beq a b && GenericNode.beqList as bs
  | _, _ => false

end

mutual

theorem GenericNode.genericBeq_iff : ∀ a b : GenericNode, GenericNode.beq a b = true ↔ a = b
  | .mk i1 t1 r1 c1, .mk i2 t2 r2 c2 => by
    simp only [GenericNode.beq, Bool.and_eq_true, beq_iff_eq, GenericNode.mk.injEq, and_assoc]
    exact and_congr Iff.rfl (and_congr Iff.rfl
      (and_congr Iff.rfl (GenericNode.genericBeqList_iff c1 c2)))

theorem GenericNode.genericBeqList_iff :
    ∀ as bs : List GenericNode, GenericNode.beqList as bs = true ↔ as = bs
  | [], [] => by simp [GenericNode.beqList]
  | [], _ :: _ => by simp [GenericNode.beqList]
  | _ :: _, [] => by simp [GenericNode.beqList]
  | a :: as, b :: bs => by
    simp only [GenericNode.beqList, Bool.and_eq_true, List.cons.injEq]
    exact and_congr (GenericNode.genericBeq_iff a b) (GenericNode.genericBeqList_iff as bs)

end

instance : DecidableEq GenericNode := fun a b =>
  decidable_of_iff (GenericNode.beq a b = true) (GenericNode.genericBeq_iff a b)

/-- One entry of the Node Correspondence Registry: the identities (arena
handles) of a generic node and of the native node it was built from,
together with the two nodes (spec sections 3 and 4.2). -/
structure RegEntry where
  gid : Nat
  nid : Nat
  gnode : GenericNode
  nnode : NativeNode
deriving DecidableEq

/-- Traversal state of the conversion engine: the next fresh generic and
native arena handles and the registry accumulated so far (spec section 9:
two arena-style tables keyed by stable node identity, populated in the
same pass that builds the tree). -/
structure ConvState where
  nextGid : Nat
  nextNid : Nat
  registry : List RegEntry
deriving DecidableEq

/-- The native node kinds that have a registered builder in the modelled
builder table (a representative subset; the full table lives in
`lib/ast-converter`, which is not under `src/`). -/
def knownKinds : List String :=
  ["SourceFile", "VariableStatement", "VariableDeclarationList", "VariableDeclaration",
   "Identifier", "NumericLiteral", "StringLiteral", "ArrayLiteralExpression",
   "ExpressionStatement", "CallExpression", "PropertyAccessExpression", "BinaryExpression",
   "Block", "IfStatement", "FunctionDeclaration", "ClassDeclaration", "ExportDeclaration",
   "ImportDeclaration", "EndOfFileToken"]

/-- The generic kind tag a registered builder assigns for a known native
kind (representative subset of the builder table). -/
def mapKind (kind : String) : String :=
  if kind == "SourceFile" then "Program"
  else if kind == "NumericLiteral" then "Literal"
  else if kind == "StringLiteral" then "Literal"
  else if kind == "VariableStatement" then "VariableDeclaration"
  else if kind == "ArrayLiteralExpression" then "ArrayExpression"
  else if kind == "PropertyAccessExpression" then "MemberExpression"
  else if kind == "Block" then "BlockStatement"
  else kind

/-- The native kinds whose builder additionally emits a purely synthetic
wrapper generic node (one synthesized only to satisfy the generic tree
shape, spec section 4.1 step 6; such wrappers are excluded from the
registry). -/
def syntheticWrapKinds : List String :=
  ["ExportDeclaration"]

mutual

/-- Modelled from the spec: the depth-first conversion of one native node,
spec section 4.1 (`lib/ast-converter` is not under `src/`).  An unknown
kind fails fast with `UnsupportedNodeKind` only when
`extra.errorOnUnknownASTType` is set, and otherwise degrades to a
passthrough generic node carrying the native kind name as its `type`
field.  Every real native node is assigned fresh arena handles and
registered; a synthetic wrapper consumes a generic handle but is not
registered. -/
def convertNode (extra : Extra) : NativeNode → ConvState → Except ParseErr (GenericNode × ConvState)
  | .node kind pos endPos children, st =>
    if !(knownKinds.contains kind) && extra.errorOnUnknownASTType then
      .error (.unsupportedNodeKind kind)
    else
      let gid := st.nextGid
      let nid := st.nextNid
      match convertList extra children { st with nextGid := gid + 1, nextNid := nid + 1 } with
      | .error e => .error e
      | .ok (gchildren, st2) =>
        let typeName := if knownKinds.contains kind then mapKind kind else kind
        let g : GenericNode :=
          .mk gid typeName (if extra.range then some (pos, endPos) else none) gchildren
        let entry : RegEntry :=
          { gid := gid, nid := nid, gnode := g, nnode := .node kind pos endPos children }
        let st3 : ConvState := { st2 with registry := entry :: st2.registry }
        if syntheticWrapKinds.contains kind then
          let w : GenericNode :=
            .mk st3.nextGid "ExportNamedDeclaration"
              (if extra.range then some (pos, endPos) else none) [g]
          .ok (w, { st3 with nextGid := st3.nextGid + 1 })
        else
          .ok (g, st3)

/-- Conversion of a child list in source order (spec section 4.1 step 2). -/
def convertList (extra : Extra) :
    List NativeNode → ConvState → Except ParseErr (List GenericNode × ConvState)
  | [], st => .ok ([], st)
  | n :: ns, st =>
    match convertNode extra n st with
    | .error e => .error e
    | .ok (g, st1) =>
      match convertList extra ns st1 with
      | .error e => .error e
      | .ok (gs, st2) => .ok (g :: gs, st2)

end

mutual

/-- Does the native tree contain a node whose kind has no registered
builder? -/
def containsUnknownKind : NativeNode → Bool
  | .node kind _ _ children => !(knownKinds.contains kind) || containsUnknownKindList children

def containsUnknownKindList : List NativeNode → Bool
  | [] => false
  | n :: ns => containsUnknownKind n || containsUnknownKindList ns

end

/-- The value returned by `convert(ast, extra)` (`src/parser.js` line 218):
the generic tree and the populated registry from which both node maps are
read. -/
structure ConvertResult where
  estree : GenericNode
  registry : List RegEntry
deriving DecidableEq

/-- Modelled from the spec: `convert(ast, extra)` of `src/parser.js` line
218 (`lib/ast-converter` is not under `src/`): run the depth-first
conversion from a fresh per-call state — fresh arena counters and an empty
registry (spec section 3: the registry is created fresh per conversion
call). -/
def convert (ast : NativeNode) (extra : Extra) : Except ParseErr ConvertResult :=
  match convertNode extra ast { nextGid := 0, nextNid := 0, registry := [] } with
  | .error e => .error e
  | .ok (g, st) => .ok { estree := g, registry := st.registry }

/-- Lookup in the generic-to-native map (`esTreeNodeToTSNodeMap`), keyed by
the generic node's identity (arena handle). -/
def esTreeNodeToTSNode (reg : List RegEntry) (gid : Nat) : Option RegEntry :=
  reg.find? (fun e => e.gid == gid)

/-- Lookup in the native-to-generic map (`tsNodeToESTreeNodeMap`), keyed by
the native node's identity (arena handle). -/
def tsNodeToESTreeNode (reg : List RegEntry) (nid : Nat) : Option RegEntry :=
  reg.find? (fun e => e.nid == nid)

/-- The `astMaps` object assembled at `src/parser.js` lines 222-224: in the
no-services case both fields are explicitly `undefined`. -/
structure AstMaps where
  esTreeNodeToTSNodeMap : Option (List RegEntry)
  tsNodeToESTreeNodeMap : Option (List RegEntry)
deriving DecidableEq

/-- The value `generateAST` returns (`src/parser.js` lines 219-225). -/
structure ParseResult where
  estree : GenericNode
  program : Option Program
  astMaps : AstMaps
deriving DecidableEq

/-- The `String(code)` coercion of `src/parser.js` lines 60-64: a value
that is not a string is replaced by its standard string conversion (boxed
`String` objects are not modelled). -/
def codeToString (code : JSValue) : String :=
  if !(typeofJS code == "string") then jsToString code else asString code

/-- The shim file name of `src/parser.js` line 162: `.tsx` when the
caller's `jsx` ecmaFeature is truthy, `.ts` otherwise. -/
def shimFileName (e : Extra) : String :=
  if truthy e.ecmaFeaturesJsx then "estree.tsx" else "estree.ts"

/-- The single-file compatibility-shim program of `src/parser.js` lines
164-212: a `ts.createProgram` over one synthesized source file produced by
the no-resolution compiler host from the caller's code. -/
def shimProgram (env : ParseEnv) (fname : String) (code : String) : Program :=
  { sourceFiles := [(fname, env.createSourceFile fname code)] }

/-- `options.filePath` (`src/parser.js` line 143); `undefined` when no
options object was supplied. -/
def filePathOf (options : Option OptionsObj) : JSValue :=
  match options with
  | some o => o.filePath
  | none => .vUndefined

/-- The body of `generateAST` (`src/parser.js` lines 59-226) minus the
module-level mutable plumbing: coerce `code`, rebuild `extra` from the
options, lazily resolve and select a project program when a validated
project list is present (lines 138-157, the lazy sequence and the
lines 149-156 loop fused in `resolveProject`), otherwise fall back to the
single-file compatibility shim (lines 159-215), convert, and assemble the
result (lines 217-225).  Returns the result (or the propagated structured
error) together with the final value of the module-level `extra`. -/
def runParse (env : ParseEnv) (code : JSValue) (options : Option OptionsObj) :
    Except ParseErr ParseResult × Extra :=
  let codeStr := codeToString code
  let extra1 := buildExtra options
  let shouldProvideParserServices := !extra1.project.isEmpty
  let resolved : Except ParseErr (Option (Program × NativeNode)) :=
    if shouldProvideParserServices then
      resolveProject env codeStr (filePathOf options) extra1.project
    else .ok none
  match resolved with
  | .error e => (.error e, extra1)
  | .ok found =>
    let pt :=
      match found with
      | some pt => pt
      | none =>
        let fname := shimFileName extra1
        (shimProgram env fname codeStr, env.createSourceFile fname codeStr)
    let extra2 := { extra1 with code := some codeStr }
    match convert pt.2 extra2 with
    | .error e => (.error e, extra2)
    | .ok cres =>
      (.ok { estree := cres.estree
             program := if shouldProvideParserServices then some pt.1 else none
             astMaps :=
               if shouldProvideParserServices then
                 { esTreeNodeToTSNodeMap := some cres.registry
                   tsNodeToESTreeNodeMap := some cres.registry }
               else { esTreeNodeToTSNodeMap := none, tsNodeToESTreeNodeMap := none } },
       extra2)

/-- The module-level mutable state of `src/parser.js`: the shared `extra`
object (line 25) and the one-shot version-warning flag (line 26). -/
structure ParserState where
  extra : Extra
  warnedAboutTSVersion : Bool
deriving DecidableEq

/-- The module state when `src/parser.js` is first loaded (`extra` is first
assigned by the unconditional `resetExtra()` of line 66; its pre-call value
is never read, so the load-time value is taken to be `resetExtra`). -/
def initialParserState : ParserState :=
  { extra := resetExtra, warnedAboutTSVersion := false }

/-- `generateAST(code, options)` over the module state.  `resetExtra()`
(line 66) runs before any read of the shared `extra`, so the call's
outcome and the final `extra` are exactly `runParse`; the incoming state
contributes only the sticky `warnedAboutTSVersion` flag (lines 123-136,
whose body only logs). -/
def generateAST (env : ParseEnv) (st : ParserState) (code : JSValue)
    (options : Option OptionsObj) : Except ParseErr ParseResult × ParserState :=
  let core := runParse env code options
  (core.1,
   { extra := core.2
     warnedAboutTSVersion := st.warnedAboutTSVersion || !env.tsVersionSupported })

/-- The `services` object assembled by `exports.parse`
(`src/parser.js` lines 238-242). -/
structure ParserServices where
  program : Option Program
  esTreeNodeToTSNodeMap : Option (List RegEntry)
  tsNodeToESTreeNodeMap : Option (List RegEntry)
deriving DecidableEq

/-- The value `exports.parse` returns (`src/parser.js` lines 236-243). -/
structure ParseOutput where
  ast : GenericNode
  services : ParserServices
deriving DecidableEq

/-- `exports.parse(code, options)` (`src/parser.js` lines 234-244): run
`generateAST` and repackage the result. -/
def parse (env : ParseEnv) (st : ParserState) (code : JSValue)
    (options : Option OptionsObj) : Except ParseErr ParseOutput × ParserState :=
  match generateAST env st code options with
  | (.error e, st') => (.error e, st')
  | (.ok r, st') =>
    (.ok { ast := r.estree
           services :=
             { program := r.program
               esTreeNodeToTSNodeMap := r.astMaps.esTreeNodeToTSNodeMap
               tsNodeToESTreeNodeMap := r.astMaps.tsNodeToESTreeNodeMap } },
     st')

instance {ε α : Type} [DecidableEq ε] [DecidableEq α] : DecidableEq (Except ε α) := fun a b =>
  match a, b with
  | .ok x, .ok y =>
    decidable_of_iff (x = y) ⟨fun h => by rw [h], fun h => by injection h⟩
  | .error x, .error y =>
    decidable_of_iff (x = y) ⟨fun h => by rw [h], fun h => by injection h⟩
  | .ok _, .error _ => isFalse (fun h => Except.noConfusion h)
  | .error _, .ok _ => isFalse (fun h => Except.noConfusion h)

theorem isEmpty_false_of_ne_nil {α : Type} {l : List α} (h : l ≠ []) : l.isEmpty = false := by
  cases l with
  | nil => exact absurd rfl h
  | cons a as => rfl

/-- The `extra` object as it stands at `src/parser.js` line 218: the
validated options plus the coerced source text stored at line 217. -/
def extraAtConvert (code : JSValue) (options : Option OptionsObj) : Extra :=
  { buildExtra options with code := some (codeToString code) }

/-- `runParse` in the no-services regime (`extra.project` empty): the
compatibility shim supplies both the program and the tree, and the
returned `program` and both node maps are `undefined`. -/
theorem runParse_noproject (env : ParseEnv) (code : JSValue) (options : Option OptionsObj)
    (h : (buildExtra options).project = []) :
    runParse env code options =
      (match convert (env.createSourceFile (shimFileName (buildExtra options)) (codeToString code))
          (extraAtConvert code options) with
       | .error e => (.error e, extraAtConvert code options)
       | .ok cres =>
         (.ok { estree := cres.estree
                program := none
                astMaps := { esTreeNodeToTSNodeMap := none, tsNodeToESTreeNodeMap := none } },
          extraAtConvert code options)) := by
  simp only [runParse, extraAtConvert, h, List.isEmpty_nil, Bool.not_true, Bool.false_eq_true,
    if_false]

/-- `runParse` when project resolution itself fails: the structured error
is propagated and no result is produced. -/
theorem runParse_resolution_error (env : ParseEnv) (code : JSValue) (options : Option OptionsObj)
    (e : ParseErr) (hne : (buildExtra options).project ≠ [])
    (hres : resolveProject env (codeToString code) (filePathOf options)
      (buildExtra options).project = .error e) :
    runParse env code options = (.error e, buildExtra options) := by
  simp only [runParse, isEmpty_false_of_ne_nil hne, Bool.not_false, if_true, hres]

/-- `runParse` when some supplied project resolves the file: the selected
program and the real node maps are returned. -/
theorem runParse_found (env : ParseEnv) (code : JSValue) (options : Option OptionsObj)
    (p : Program) (t : NativeNode) (cres : ConvertResult)
    (hne : (buildExtra options).project ≠ [])
    (hres : resolveProject env (codeToString code) (filePathOf options)
      (buildExtra options).project = .ok (some (p, t)))
    (hconv : convert t (extraAtConvert code options) = .ok cres) :
    runParse env code options =
      (.ok { estree := cres.estree
             program := some p
             astMaps := { esTreeNodeToTSNodeMap := some cres.registry
                          tsNodeToESTreeNodeMap := some cres.registry } },
       extraAtConvert code options) := by
  simp only [runParse, isEmpty_false_of_ne_nil hne, Bool.not_false, if_true, hres,
    extraAtConvert] at *
  simp only [hconv]

/-- `runParse` when projects were supplied but none resolves the file: the
call falls back to the compatibility shim, yet — because
`shouldProvideParserServices` only checks that the validated project list
is non-empty — the shim program and the real node maps are returned. -/
theorem runParse_nomatch (env : ParseEnv) (code : JSValue) (options : Option OptionsObj)
    (cres : ConvertResult)
    (hne : (buildExtra options).project ≠ [])
    (hres : resolveProject env (codeToString code) (filePathOf options)
      (buildExtra options).project = .ok none)
    (hconv : convert (env.createSourceFile (shimFileName (buildExtra options)) (codeToString code))
      (extraAtConvert code options) = .ok cres) :
    runParse env code options =
      (.ok { estree := cres.estree
             program := some (shimProgram env (shimFileName (buildExtra options))
               (codeToString code))
             astMaps := { esTreeNodeToTSNodeMap := some cres.registry
                          tsNodeToESTreeNodeMap := some cres.registry } },
       extraAtConvert code options) := by
  simp only [runParse, isEmpty_false_of_ne_nil hne, Bool.not_false, if_true, hres,
    extraAtConvert] at *
  simp only [hconv]

/-- Repackaging of a successful `generateAST` result by `exports.parse`. -/
theorem parse_of_runParse_ok (env : ParseEnv) (st : ParserState) (code : JSValue)
    (options : Option OptionsObj) (r : ParseResult) (ex : Extra)
    (h : runParse env code options = (.ok r, ex)) :
    (parse env st code options).1 =
      .ok { ast := r.estree
            services := { program := r.program
                          esTreeNodeToTSNodeMap := r.astMaps.esTreeNodeToTSNodeMap
                          tsNodeToESTreeNodeMap := r.astMaps.tsNodeToESTreeNodeMap } } := by
  simp only [parse, generateAST, h]

/-- Propagation of a `runParse` failure through `exports.parse`. -/
theorem parse_of_runParse_error (env : ParseEnv) (st : ParserState) (code : JSValue)
    (options : Option OptionsObj) (e : ParseErr) (ex : Extra)
    (h : runParse env code options = (.error e, ex)) :
    (parse env st code options).1 = .error e := by
  simp only [parse, generateAST, h]

/-- C6: converting the same source text with the same options yields the
same result — in particular structurally identical (deeply equal) generic
trees — no matter what module state earlier calls left behind, because
`resetExtra()` (line 66) rebuilds `extra` before any read.  Running the
call twice in sequence is the instance `st2 := (generateAST env st1 code
options).2`.  (Object identities — the spec's "Registry entries are
distinct object identities per call" — are not part of the structural
model; each call does build its registry from a fresh empty state, see
`convert`.) -/
theorem c6_conversion_deterministic (env : ParseEnv) (st1 st2 : ParserState) (code : JSValue)
    (options : Option OptionsObj) :
    (generateAST env st1 code options).1.map ParseResult.estree
        = (generateAST env st2 code options).1.map ParseResult.estree ∧
      (generateAST env st1 code options).1 = (generateAST env st2 code options).1 :=
  ⟨rfl, rfl⟩

/-- The first component of `parse` is fully determined by `runParse`; the
module state only feeds the version-warning flag in the second
component. -/
theorem parse_fst_char (env : ParseEnv) (st : ParserState) (code : JSValue)
    (options : Option OptionsObj) :
    (parse env st code options).1
      = (match (runParse env code options).1 with
         | .error e => .error e
         | .ok r => .ok { ast := r.estree
                          services :=
                            { program := r.program
                              esTreeNodeToTSNodeMap := r.astMaps.esTreeNodeToTSNodeMap
                              tsNodeToESTreeNodeMap := r.astMaps.tsNodeToESTreeNodeMap } }) := by
  simp only [parse, generateAST]
  rcases runParse env code options with ⟨res, ex⟩
  cases res <;> rfl

/-- C7: two-run noninterference over the configuration.  The conversion
context is rebuilt from the caller's own options at the start of every
call (`resetExtra()`, line 66, followed by the option block), so a call's
result is a function of its own `code` and `options` alone: running call B
after an arbitrary call A (with different code and options) returns
exactly what call B returns from the pristine module state. -/
theorem c7_noninterference (env : ParseEnv) (st : ParserState) (codeA : JSValue)
    (optionsA : Option OptionsObj) (codeB : JSValue) (optionsB : Option OptionsObj) :
    (parse env (parse env st codeA optionsA).2 codeB optionsB).1
      = (parse env initialParserState codeB optionsB).1 := by
  rw [parse_fst_char, parse_fst_char]

/-- C8: the source-code argument of `parse` may be any value; a non-string
is first coerced by the standard `String(...)` conversion (lines 60-64)
and the call proceeds exactly as if that string had been passed, so the
call never fails on account of the argument's type. -/
theorem c8_code_coercion (env : ParseEnv) (st : ParserState) (code : JSValue)
    (options : Option OptionsObj) (h : typeofJS code ≠ "string") :
    (parse env st code options).1
      = (parse env st (.vString (jsToString code)) options).1 := by
  have hc : codeToString code = codeToString (.vString (jsToString code)) := by
    simp only [codeToString, typeofJS, asString]
    rw [if_pos, if_neg]
    · simp
    · simpa using h
  simp only [parse, generateAST, runParse, hc]

/-- C8 witness: passing the number `42` behaves exactly like passing the
string `"42"`. -/
theorem c8_code_coercion_witness :
    typeofJS (.vNumber 42) ≠ "string" ∧
      (parse { fs := fun _ => none, parseConfig := fun _ => none
               createSourceFile := fun _ c => .node "SourceFile" 0 c.length []
               tsVersionSupported := true }
          initialParserState (.vNumber 42) none).1
        = (parse { fs := fun _ => none, parseConfig := fun _ => none
                   createSourceFile := fun _ c => .node "SourceFile" 0 c.length []
                   tsVersionSupported := true }
            initialParserState (.vString (jsToString (.vNumber 42))) none).1 :=
  ⟨by decide,
   c8_code_coercion
     { fs := fun _ => none, parseConfig := fun _ => none
       createSourceFile := fun _ c => .node "SourceFile" 0 c.length []
       tsVersionSupported := true }
     initialParserState (.vNumber 42) none (by decide)⟩

theorem strictBool_of_not_boolean {v : JSValue} (h : typeofJS v ≠ "boolean") :
    strictBool v = false := by
  cases v <;> first
  | rfl
  | exact absurd rfl h

/-- C9: the options `range`, `loc`, `tokens`, `comment`, `tolerant` and
`useJSXTextNode` are guarded by `typeof v === "boolean" && v` (lines
68-102), so any non-boolean value — including truthy ones such as the
string `"true"` or the number `1` — produces exactly the `extra` that an
absent (`undefined`) option produces: the feature stays disabled. -/
theorem c9_strict_boolean_options (o : OptionsObj) (v : JSValue)
    (h : typeofJS v ≠ "boolean") :
    buildExtra (some { o with range := v }) = buildExtra (some { o with range := .vUndefined }) ∧
    buildExtra (some { o with loc := v }) = buildExtra (some { o with loc := .vUndefined }) ∧
    buildExtra (some { o with tokens := v }) = buildExtra (some { o with tokens := .vUndefined }) ∧
    buildExtra (some { o with comment := v })
      = buildExtra (some { o with comment := .vUndefined }) ∧
    buildExtra (some { o with tolerant := v })
      = buildExtra (some { o with tolerant := .vUndefined }) ∧
    buildExtra (some { o with useJSXTextNode := v })
      = buildExtra (some { o with useJSXTextNode := .vUndefined }) := by
  have hs : strictBool v = false := strictBool_of_not_boolean h
  have hu : strictBool .vUndefined = false := rfl
  refine ⟨?_, ?_, ?_, ?_, ?_, ?_⟩ <;>
    simp only [buildExtra, applyOptions, hs, hu, Bool.false_and, Bool.false_eq_true, if_false]

/-- C9 witness: the truthy non-boolean values `"true"` and `1` leave
`range` (and the other strict-boolean options) disabled, exactly as when
the option is absent. -/
theorem c9_strict_boolean_options_witness :
    typeofJS (.vString "true") ≠ "boolean" ∧
      buildExtra (some { range := .vString "true" }) = buildExtra (some {}) ∧
      (buildExtra (some { range := .vString "true" })).range = false :=
  ⟨by decide,
   (c9_strict_boolean_options {} (.vString "true") (by decide)).1,
   by decide⟩

/-- When none of the programs contains the file, the selection loop of
lines 149-156 falls through without a match. -/
theorem findRelevantProgram_eq_none (f : JSValue) :
    ∀ ps : List Program, (∀ p ∈ ps, p.getSourceFile f = none) →
      findRelevantProgram f ps = none
  | [], _ => rfl
  | p :: ps, h => by
    simp only [findRelevantProgram, h p (List.mem_cons_self p ps)]
    exact findRelevantProgram_eq_none f ps (fun q hq => h q (List.mem_cons_of_mem p hq))

/-- A prefix of configuration paths that all resolve to programs not
containing the file is processed in order and skipped by the lazy
resolution. -/
theorem resolveProject_skip (env : ParseEnv) (code : String) (f : JSValue) :
    ∀ (pre : List String) (prs : List Program) (rest : List String),
      List.Forall₂ (fun q pr => resolveConfig env q = .ok pr) pre prs →
      (∀ pr ∈ prs, pr.getSourceFile f = none) →
      resolveProject env code f (pre ++ rest) = resolveProject env code f rest
  | [], prs, rest, hf, _ => by
    cases hf
    rfl
  | q :: pre2, prs, rest, hf, hmiss => by
    cases hf with
    | cons hq hf2 =>
      rename_i pr prs2
      simp only [List.cons_append, resolveProject, hq,
        hmiss pr (List.mem_cons_self pr prs2)]
      exact resolveProject_skip env code f pre2 prs2 rest hf2
        (fun pr2 h2 => hmiss pr2 (List.mem_cons_of_mem pr h2))

/-- When every supplied configuration path resolves to a program not
containing the file, the lazy resolution yields no match (and no
error). -/
theorem resolveProject_none (env : ParseEnv) (code : String) (f : JSValue)
    (paths : List String) (prs : List Program)
    (h1 : List.Forall₂ (fun q pr => resolveConfig env q = .ok pr) paths prs)
    (h2 : ∀ pr ∈ prs, pr.getSourceFile f = none) :
    resolveProject env code f paths = .ok none := by
  have h := resolveProject_skip env code f paths prs [] h1 h2
  rw [List.append_nil] at h
  rw [h]
  rfl

/-- The lazy resolution selects the head path's program as soon as it
contains the file, never touching the tail. -/
theorem resolveProject_cons_found (env : ParseEnv) (code : String) (f : JSValue)
    (q : String) (rest : List String) (p : Program) (t : NativeNode)
    (hq : resolveConfig env q = .ok p) (ht : p.getSourceFile f = some t) :
    resolveProject env code f (q :: rest) = .ok (some (p, t)) := by
  simp only [resolveProject, hq, ht]

/-- The lazy resolution is fatally stopped by a head path that fails to
resolve, never touching the tail. -/
theorem resolveProject_cons_error (env : ParseEnv) (code : String) (f : JSValue)
    (q : String) (rest : List String) (e : ParseErr)
    (hq : resolveConfig env q = .error e) :
    resolveProject env code f (q :: rest) = .error e := by
  simp only [resolveProject, hq]

/-- Whenever the validated project list is empty, any successful `parse`
result carries `undefined` for the program and for both node maps. -/
theorem parse_services_none (env : ParseEnv) (st : ParserState) (code : JSValue)
    (options : Option OptionsObj) (r : ParseOutput)
    (hproj : (buildExtra options).project = [])
    (hok : (parse env st code options).1 = .ok r) :
    r.services.program = none ∧ r.services.esTreeNodeToTSNodeMap = none
      ∧ r.services.tsNodeToESTreeNodeMap = none := by
  have h := runParse_noproject env code options hproj
  cases hc : convert (env.createSourceFile (shimFileName (buildExtra options))
      (codeToString code)) (extraAtConvert code options) with
  | error e =>
    rw [hc] at h
    rw [parse_of_runParse_error env st code options e _ h] at hok
    exact absurd hok (by simp)
  | ok cres =>
    rw [hc] at h
    rw [parse_of_runParse_ok env st code options _ _ h] at hok
    injection hok with hr
    subst hr
    exact ⟨rfl, rfl, rfl⟩

/-- C1 (amended): with a non-empty validated project list none of whose
resolved programs contains the file, the call still succeeds and returns
the generic tree built from the compatibility shim — but, because
`shouldProvideParserServices` (line 140) only checks that the project list
is non-empty, the returned `program` is the shim program (defined, not
`undefined`) and both node maps are the real maps.  `program` and the node
maps are `undefined` exactly when the validated project list is empty. -/
theorem c1_services_presence (env : ParseEnv) (st : ParserState) (code : JSValue)
    (o : OptionsObj) (progs : List Program) (cres : ConvertResult) :
    ((buildExtra (some o)).project ≠ [] →
     List.Forall₂ (fun q pr => resolveConfig env q = .ok pr)
         (buildExtra (some o)).project progs →
     (∀ p ∈ progs, p.getSourceFile o.filePath = none) →
     convert (env.createSourceFile (shimFileName (buildExtra (some o))) (codeToString code))
         (extraAtConvert code (some o)) = .ok cres →
     (parse env st code (some o)).1
       = .ok { ast := cres.estree
               services :=
                 { program := some (shimProgram env (shimFileName (buildExtra (some o)))
                     (codeToString code))
                   esTreeNodeToTSNodeMap := some cres.registry
                   tsNodeToESTreeNodeMap := some cres.registry } }) ∧
    ((buildExtra (some o)).project = [] →
     ∀ r : ParseOutput, (parse env st code (some o)).1 = .ok r →
       r.services.program = none ∧ r.services.esTreeNodeToTSNodeMap = none
         ∧ r.services.tsNodeToESTreeNodeMap = none) := by
  constructor
  · intro hne hforall hmiss hconv
    have hres : resolveProject env (codeToString code) (filePathOf (some o))
        (buildExtra (some o)).project = .ok none :=
      resolveProject_none env (codeToString code) (filePathOf (some o)) _ progs hforall hmiss
    have hrun := runParse_nomatch env code (some o) cres hne hres hconv
    exact parse_of_runParse_ok env st code (some o) _ _ hrun
  · intro hproj r hok
    exact parse_services_none env st code (some o) r hproj hok

/-- Environment for the concrete no-match scenario: one valid project
configuration `"cfg"` whose program analyzes only `"a.ts"`. -/
def c1Env : ParseEnv :=
  { fs := fun p =>
      if p = "cfg" then some (.file "cfgcontent")
      else if p = "a.ts" then some (.file "let a")
      else none
    parseConfig := fun c => if c = "cfgcontent" then some { fileNames := ["a.ts"] } else none
    createSourceFile := fun _ c =>
      .node "SourceFile" 0 c.length [.node "EndOfFileToken" c.length c.length []]
    tsVersionSupported := true }

/-- Options naming the valid configuration `"cfg"` but a file
(`"other.ts"`) that its program does not contain. -/
def c1Opts : OptionsObj := { project := .vString "cfg", filePath := .vString "other.ts" }

/-- Source text for the no-match scenario. -/
def c1Code : JSValue := .vString "let x = 1"

/-- The program resolved from `"cfg"`. -/
def c1Prog : Program := buildProgram c1Env { fileNames := ["a.ts"] }

/-- The conversion result of the shim tree in the no-match scenario. -/
def c1Cres : ConvertResult :=
  (convert (c1Env.createSourceFile "estree.ts" "let x = 1")
      (extraAtConvert c1Code (some c1Opts))).toOption.getD
    { estree := .mk 0 "" none [], registry := [] }

/-- C1 counterexample: a call with one valid supplied project configuration
that does not cover the file succeeds, yet `services.program` and both
node maps are defined — not `undefined` as the claim states. -/
theorem c1_counterexample_services_defined :
    (buildExtra (some c1Opts)).project = ["cfg"] ∧
      resolveConfig c1Env "cfg" = .ok c1Prog ∧
      c1Prog.getSourceFile c1Opts.filePath = none ∧
      ((parse c1Env initialParserState c1Code (some c1Opts)).1.map
          (fun out => (out.services.program.isSome, out.services.esTreeNodeToTSNodeMap.isSome,
            out.services.tsNodeToESTreeNodeMap.isSome)))
        = .ok (true, true, true) :=
  ⟨rfl, rfl, rfl, by rfl⟩

/-- C1 witness: the amended statement instantiated at the concrete
no-match scenario. -/
theorem c1_services_presence_witness :
    (buildExtra (some c1Opts)).project ≠ [] ∧
      (parse c1Env initialParserState c1Code (some c1Opts)).1
        = .ok { ast := c1Cres.estree
                services :=
                  { program := some (shimProgram c1Env
                      (shimFileName (buildExtra (some c1Opts))) (codeToString c1Code))
                    esTreeNodeToTSNodeMap := some c1Cres.registry
                    tsNodeToESTreeNodeMap := some c1Cres.registry } } :=
  ⟨by decide,
   (c1_services_presence c1Env initialParserState c1Code c1Opts [c1Prog] c1Cres).1
     (by decide) (List.Forall₂.cons rfl List.Forall₂.nil) (by decide) rfl⟩

/-- C10: project-list validation (lines 113-120).  An array containing any
non-string element is rejected wholesale: the validated list stays `[]`,
so no project resolution is attempted (the result does not depend on the
file system or the configuration parser at all) and any successful result
carries `undefined` for the program and for both node maps.  A
string-valued `project`, by contrast, is treated as the one-element
list. -/
theorem c10_project_validation (env : ParseEnv) (fs2 : String → Option FSEntry)
    (pc2 : String → Option ConfigData) (st : ParserState) (code : JSValue)
    (o : OptionsObj) (s : String) (xs : List JSValue) (x : JSValue) :
    (o.project = .vArray xs → x ∈ xs → typeofJS x ≠ "string" →
     (buildExtra (some o)).project = [] ∧
       (∀ r : ParseOutput, (parse env st code (some o)).1 = .ok r →
         r.services.program = none ∧ r.services.esTreeNodeToTSNodeMap = none
           ∧ r.services.tsNodeToESTreeNodeMap = none) ∧
       (parse { env with fs := fs2, parseConfig := pc2 } st code (some o)).1
         = (parse env st code (some o)).1) ∧
    (o.project = .vString s → (buildExtra (some o)).project = [s]) := by
  constructor
  · intro ho hx ht
    have hall : xs.all (fun y => typeofJS y == "string") = false := by
      cases hall : xs.all (fun y => typeofJS y == "string") with
      | false => rfl
      | true =>
        have := List.all_eq_true.mp hall x hx
        exact absurd (by simpa using this) ht
    have hproj : (buildExtra (some o)).project = [] := by
      rw [buildExtra_project, ho]
      have harr : (typeofJS (.vArray xs) == "string") = false := rfl
      simp only [validatedProject, projectUpdate, harr, Bool.false_eq_true, if_false, hall]
    refine ⟨hproj, fun r hok => parse_services_none env st code (some o) r hproj hok, ?_⟩
    rw [parse_fst_char, parse_fst_char,
      runParse_noproject { env with fs := fs2, parseConfig := pc2 } code (some o) hproj,
      runParse_noproject env code (some o) hproj]
  · intro ho
    rw [buildExtra_project, ho]
    rfl

/-- C10 witness: `project: ["good", 1]` is ignored wholesale (services
absent, file system irrelevant), while `project: "cfg"` becomes
`["cfg"]`. -/
theorem c10_project_validation_witness :
    (buildExtra (some { project := .vArray [.vString "good", .vNumber 1] })).project = [] ∧
      (parse { c1Env with fs := fun _ => none, parseConfig := fun _ => none }
          initialParserState c1Code
          (some { project := .vArray [.vString "good", .vNumber 1] })).1
        = (parse c1Env initialParserState c1Code
            (some { project := .vArray [.vString "good", .vNumber 1] })).1 ∧
      (buildExtra (some c1Opts)).project = ["cfg"] :=
  ⟨((c10_project_validation c1Env (fun _ => none) (fun _ => none) initialParserState c1Code
      { project := .vArray [.vString "good", .vNumber 1] } "" [.vString "good", .vNumber 1]
      (.vNumber 1)).1 rfl (by decide) (by decide)).1,
   ((c10_project_validation c1Env (fun _ => none) (fun _ => none) initialParserState c1Code
      { project := .vArray [.vString "good", .vNumber 1] } "" [.vString "good", .vNumber 1]
      (.vNumber 1)).1 rfl (by decide) (by decide)).2.2,
   (c10_project_validation c1Env (fun _ => none) (fun _ => none) initialParserState c1Code
      c1Opts "cfg" [] .vUndefined).2 rfl⟩

/-- The selection loop returns the first matching program, independently of
whatever comes after it. -/
theorem findRelevantProgram_first (f : JSValue) (p : Program) (t : NativeNode) :
    ∀ (pre rest : List Program), (∀ q ∈ pre, q.getSourceFile f = none) →
      p.getSourceFile f = some t →
      findRelevantProgram f (pre ++ p :: rest) = some (p, t)
  | [], rest, _, hp => by
    simp only [List.nil_append, findRelevantProgram, hp]
  | q :: pre, rest, hpre, hp => by
    have hq := hpre q (List.mem_cons_self q pre)
    simp only [List.cons_append, findRelevantProgram, hq]
    exact findRelevantProgram_first f p t pre rest
      (fun r hr => hpre r (List.mem_cons_of_mem q hr)) hp

/-- C2: project resolution and selection follow the caller's order.  The
lazy resolution engine processes the configuration paths in exactly the
order the caller supplied them, resolving each via `resolveConfig`, and
selects the first resolved Program containing an analysis unit for the
file; once one matches, no later configuration is inspected — the outcome
is identical for any two continuations of the path list, even ones that
could not resolve at all.  The same first-match and tail-independence
properties hold for the materialized selection loop of `src/parser.js`
lines 149-156 (`findRelevantProgram`). -/
theorem c2_first_match_in_order (env : ParseEnv) (code : String) (f : JSValue)
    (qs rpaths rpaths2 : List String) (prs : List Program) (q : String)
    (pre rest rest2 : List Program) (p : Program) (t : NativeNode) :
    (List.Forall₂ (fun q2 pr => resolveConfig env q2 = .ok pr) qs prs →
      (∀ pr ∈ prs, pr.getSourceFile f = none) →
      resolveConfig env q = .ok p → p.getSourceFile f = some t →
      resolveProject env code f (qs ++ q :: rpaths) = .ok (some (p, t))) ∧
    (List.Forall₂ (fun q2 pr => resolveConfig env q2 = .ok pr) qs prs →
      (∀ pr ∈ prs, pr.getSourceFile f = none) →
      resolveConfig env q = .ok p → p.getSourceFile f = some t →
      resolveProject env code f (qs ++ q :: rpaths)
        = resolveProject env code f (qs ++ q :: rpaths2)) ∧
    ((∀ q2 ∈ pre, q2.getSourceFile f = none) → p.getSourceFile f = some t →
      findRelevantProgram f (pre ++ p :: rest) = some (p, t)) ∧
    ((∀ q2 ∈ pre, q2.getSourceFile f = none) → p.getSourceFile f = some t →
      findRelevantProgram f (pre ++ p :: rest)
        = findRelevantProgram f (pre ++ p :: rest2)) := by
  have key : ∀ (rp : List String),
      List.Forall₂ (fun q2 pr => resolveConfig env q2 = .ok pr) qs prs →
      (∀ pr ∈ prs, pr.getSourceFile f = none) →
      resolveConfig env q = .ok p → p.getSourceFile f = some t →
      resolveProject env code f (qs ++ q :: rp) = .ok (some (p, t)) := by
    intro rp hforall hmiss hq ht
    rw [resolveProject_skip env code f qs prs (q :: rp) hforall hmiss]
    exact resolveProject_cons_found env code f q rp p t hq ht
  refine ⟨key rpaths, ?_, findRelevantProgram_first f p t pre rest, ?_⟩
  · intro hforall hmiss hq ht
    rw [key rpaths hforall hmiss hq ht, key rpaths2 hforall hmiss hq ht]
  · intro hpre hp
    rw [findRelevantProgram_first f p t pre rest hpre hp,
      findRelevantProgram_first f p t pre rest2 hpre hp]

/-- Environment for the C2/C3 witnesses: two valid configurations, one
covering `"a.ts"` and one covering `"b.ts"`; every other path is
missing. -/
def c2Env : ParseEnv :=
  { fs := fun p =>
      if p = "cfg" then some (.file "cfgcontent")
      else if p = "cfg2" then some (.file "cfgcontent2")
      else if p = "a.ts" then some (.file "let a")
      else if p = "b.ts" then some (.file "let b")
      else none
    parseConfig := fun c =>
      if c = "cfgcontent" then some { fileNames := ["a.ts"] }
      else if c = "cfgcontent2" then some { fileNames := ["b.ts"] }
      else none
    createSourceFile := fun _ c =>
      .node "SourceFile" 0 c.length [.node "EndOfFileToken" c.length c.length []]
    tsVersionSupported := true }

/-- The program resolved from `"cfg"` in `c2Env` (covers `"a.ts"` only). -/
def c2ProgA : Program := buildProgram c2Env { fileNames := ["a.ts"] }

/-- The program resolved from `"cfg2"` in `c2Env` (covers `"b.ts"`). -/
def c2ProgB : Program := buildProgram c2Env { fileNames := ["b.ts"] }

/-- The native tree of `"b.ts"` in `c2Env`. -/
def c2TreeB : NativeNode := c2Env.createSourceFile "b.ts" "let b"

/-- A program used by the loop-level C2 witness, containing `"b.ts"`. -/
def c2Prog : Program := { sourceFiles := [("b.ts", .node "SourceFile" 0 1 [])] }

/-- C2 witness: the engine resolves `"cfg"` (no match) then selects
`"cfg2"`; the continuation of the path list is irrelevant — even a path
that does not exist at all; the same first-match and tail-independence at
the loop level. -/
theorem c2_first_match_in_order_witness :
    resolveProject c2Env (codeToString c1Code) (.vString "b.ts") (["cfg"] ++ "cfg2" :: [])
        = .ok (some (c2ProgB, c2TreeB)) ∧
      resolveProject c2Env (codeToString c1Code) (.vString "b.ts") (["cfg"] ++ "cfg2" :: [])
        = resolveProject c2Env (codeToString c1Code) (.vString "b.ts")
            (["cfg"] ++ "cfg2" :: ["nonexistent"]) ∧
      findRelevantProgram (.vString "b.ts") ([c1Prog] ++ c2Prog :: [])
        = some (c2Prog, .node "SourceFile" 0 1 []) ∧
      findRelevantProgram (.vString "b.ts") ([c1Prog] ++ c2Prog :: [])
        = findRelevantProgram (.vString "b.ts") ([c1Prog] ++ c2Prog :: [c1Prog, c1Prog]) :=
  ⟨(c2_first_match_in_order c2Env (codeToString c1Code) (.vString "b.ts") ["cfg"] [] []
      [c2ProgA] "cfg2" [c1Prog] [] [] c2ProgB c2TreeB).1
     (List.Forall₂.cons rfl List.Forall₂.nil) (by decide) rfl rfl,
   (c2_first_match_in_order c2Env (codeToString c1Code) (.vString "b.ts") ["cfg"] []
      ["nonexistent"] [c2ProgA] "cfg2" [c1Prog] [] [] c2ProgB c2TreeB).2.1
     (List.Forall₂.cons rfl List.Forall₂.nil) (by decide) rfl rfl,
   (c2_first_match_in_order c2Env (codeToString c1Code) (.vString "b.ts") ["cfg"] [] []
      [c2ProgA] "cfg2" [c1Prog] [] [] c2Prog (.node "SourceFile" 0 1 [])).2.2.1
     (by decide) (by decide),
   (c2_first_match_in_order c2Env (codeToString c1Code) (.vString "b.ts") ["cfg"] [] []
      [c2ProgA] "cfg2" [c1Prog] [] [c1Prog, c1Prog] c2Prog
      (.node "SourceFile" 0 1 [])).2.2.2 (by decide) (by decide)⟩

/-- Is this outcome one of the three fatal configuration-stage errors
(spec section 7)? -/
def isProjectFatal {α : Type} : Except ParseErr α → Bool
  | .error (.projectNotFound _) => true
  | .error (.projectReadFailure _) => true
  | .error (.projectMalformed _) => true
  | _ => false

/-- Is this error a configuration-stage error (as opposed to the
conversion-stage `UnsupportedNodeKind`)? -/
def isProjectErr : ParseErr → Bool
  | .unsupportedNodeKind _ => false
  | _ => true

/-- Every failure of `resolveConfig` is a configuration-stage error. -/
theorem resolveConfig_error_kind (env : ParseEnv) (path : String) (e : ParseErr)
    (h : resolveConfig env path = .error e) : isProjectErr e = true := by
  cases hfs : env.fs path with
  | none =>
    simp only [resolveConfig, hfs] at h
    injection h with h
    subst h
    rfl
  | some entry =>
    cases entry with
    | directory =>
      simp only [resolveConfig, hfs] at h
      injection h with h
      subst h
      rfl
    | file c2 =>
      cases hpc : env.parseConfig c2 with
      | none =>
        simp only [resolveConfig, hfs, hpc] at h
        injection h with h
        subst h
        rfl
      | some cfg =>
        simp only [resolveConfig, hfs, hpc] at h
        exact absurd h (by simp)

/-- C3 (amended): fatal configuration failures at reached paths.  A
configuration path that does not exist resolves to `ProjectNotFound`; one
pointing at a directory to `ProjectReadFailure`; one whose content does
not parse to `ProjectMalformed`.  Resolution is lazy in caller order and
stops at the first Program containing the file, so a bad path is fatal
exactly when resolution reaches it: if every path before it resolved to a
Program not containing the file, the whole `parse` call returns that
path's structured error — no result, hence no partially constructed
Program.  Conversely, when a path before the bad one yields a matching
Program, the bad path is never processed and the call succeeds. -/
theorem c3_project_config_failures (env : ParseEnv) (st : ParserState) (code : JSValue)
    (o : OptionsObj) (path : String) (e : ParseErr) (c : String)
    (pre rest : List String) (prs : List Program) (p : Program) (t : NativeNode)
    (cres : ConvertResult) :
    (env.fs path = none → resolveConfig env path = .error (.projectNotFound path)) ∧
    (env.fs path = some .directory →
      resolveConfig env path = .error (.projectReadFailure path)) ∧
    (env.fs path = some (.file c) → env.parseConfig c = none →
      resolveConfig env path = .error (.projectMalformed path)) ∧
    ((buildExtra (some o)).project = pre ++ path :: rest →
      List.Forall₂ (fun q pr => resolveConfig env q = .ok pr) pre prs →
      (∀ pr ∈ prs, pr.getSourceFile o.filePath = none) →
      resolveConfig env path = .error e →
      (parse env st code (some o)).1 = .error e ∧
        isProjectFatal ((parse env st code (some o)).1) = true) ∧
    ((buildExtra (some o)).project = pre ++ path :: rest →
      List.Forall₂ (fun q pr => resolveConfig env q = .ok pr) pre prs →
      (∀ pr ∈ prs, pr.getSourceFile o.filePath = none) →
      resolveConfig env path = .ok p → p.getSourceFile o.filePath = some t →
      convert t (extraAtConvert code (some o)) = .ok cres →
      ((parse env st code (some o)).1).isOk = true) := by
  refine ⟨fun h => by simp [resolveConfig, h], fun h => by simp [resolveConfig, h],
    fun h hpc => by simp [resolveConfig, h, hpc], ?_, ?_⟩
  · intro hsplit hforall hmiss herr
    have hne : (buildExtra (some o)).project ≠ [] := by
      rw [hsplit]
      intro hcontra
      rcases pre with _ | ⟨a, pre2⟩ <;> simp at hcontra
    have hres : resolveProject env (codeToString code) (filePathOf (some o))
        (buildExtra (some o)).project = .error e := by
      rw [hsplit,
        resolveProject_skip env (codeToString code) (filePathOf (some o)) pre prs
          (path :: rest) hforall hmiss]
      exact resolveProject_cons_error env (codeToString code) (filePathOf (some o))
        path rest e herr
    have hrun := runParse_resolution_error env code (some o) e hne hres
    have hp := parse_of_runParse_error env st code (some o) e _ hrun
    refine ⟨hp, ?_⟩
    rw [hp]
    have hkind := resolveConfig_error_kind env path e herr
    cases e with
    | projectNotFound s => rfl
    | projectReadFailure s => rfl
    | projectMalformed s => rfl
    | unsupportedNodeKind k => simp [isProjectErr] at hkind
  · intro hsplit hforall hmiss hok ht hconv
    have hne : (buildExtra (some o)).project ≠ [] := by
      rw [hsplit]
      intro hcontra
      rcases pre with _ | ⟨a, pre2⟩ <;> simp at hcontra
    have hres : resolveProject env (codeToString code) (filePathOf (some o))
        (buildExtra (some o)).project = .ok (some (p, t)) := by
      rw [hsplit,
        resolveProject_skip env (codeToString code) (filePathOf (some o)) pre prs
          (path :: rest) hforall hmiss]
      exact resolveProject_cons_found env (codeToString code) (filePathOf (some o))
        path rest p t hok ht
    have hrun := runParse_found env code (some o) p t cres hne hres hconv
    rw [parse_of_runParse_ok env st code (some o) _ _ hrun]
    rfl

/-- Environment for the C3 witness: a missing path, a directory path, and
a malformed configuration file. -/
def c3Env : ParseEnv :=
  { fs := fun p =>
      if p = "dir" then some .directory
      else if p = "mal" then some (.file "not json")
      else none
    parseConfig := fun _ => none
    createSourceFile := fun _ c => .node "SourceFile" 0 c.length []
    tsVersionSupported := true }

/-- Options for the C3 counterexample: a valid matching configuration
followed by a configuration path that does not exist. -/
def c3cOpts : OptionsObj :=
  { project := .vArray [.vString "cfg2", .vString "nonexistent"]
    filePath := .vString "b.ts" }

/-- The conversion result of the matched tree in the C3 counterexample
scenario. -/
def c3Cres : ConvertResult :=
  (convert c2TreeB (extraAtConvert c1Code (some c3cOpts))).toOption.getD
    { estree := .mk 0 "" none [], registry := [] }

/-- C3 counterexample: the options include a configuration path that does
not exist (`"nonexistent"`), yet — because it is listed after a
configuration that resolves the file and the lazy resolution stops at the
first match — the call succeeds instead of throwing. -/
theorem c3_counterexample_bad_path_after_match :
    (buildExtra (some c3cOpts)).project = ["cfg2", "nonexistent"] ∧
      c2Env.fs "nonexistent" = none ∧
      resolveConfig c2Env "nonexistent" = .error (.projectNotFound "nonexistent") ∧
      ((parse c2Env initialParserState c1Code (some c3cOpts)).1).isOk = true :=
  ⟨rfl, rfl, rfl, by rfl⟩

/-- C3 witness: the three failure kinds at concrete paths, the fatal
propagation of a reached missing configuration path through a full
`parse` call, and the success of a call whose bad path sits after the
matching configuration. -/
theorem c3_project_config_failures_witness :
    resolveConfig c3Env "nf" = .error (.projectNotFound "nf") ∧
      resolveConfig c3Env "dir" = .error (.projectReadFailure "dir") ∧
      resolveConfig c3Env "mal" = .error (.projectMalformed "mal") ∧
      (parse c3Env initialParserState c1Code
          (some { project := .vString "nf" })).1 = .error (.projectNotFound "nf") ∧
      isProjectFatal ((parse c3Env initialParserState c1Code
        (some { project := .vString "nf" })).1) = true ∧
      ((parse c2Env initialParserState c1Code (some c3cOpts)).1).isOk = true :=
  ⟨(c3_project_config_failures c3Env initialParserState c1Code
      { project := .vString "nf" } "nf" (.projectNotFound "nf") "not json" [] [] []
      { sourceFiles := [] } (.node "x" 0 0 [])
      { estree := .mk 0 "" none [], registry := [] }).1 rfl,
   (c3_project_config_failures c3Env initialParserState c1Code
      { project := .vString "nf" } "dir" (.projectNotFound "nf") "not json" [] [] []
      { sourceFiles := [] } (.node "x" 0 0 [])
      { estree := .mk 0 "" none [], registry := [] }).2.1 rfl,
   (c3_project_config_failures c3Env initialParserState c1Code
      { project := .vString "nf" } "mal" (.projectNotFound "nf") "not json" [] [] []
      { sourceFiles := [] } (.node "x" 0 0 [])
      { estree := .mk 0 "" none [], registry := [] }).2.2.1 rfl rfl,
   ((c3_project_config_failures c3Env initialParserState c1Code
      { project := .vString "nf" } "nf" (.projectNotFound "nf") "not json" [] [] []
      { sourceFiles := [] } (.node "x" 0 0 [])
      { estree := .mk 0 "" none [], registry := [] }).2.2.2.1 rfl List.Forall₂.nil
     (by decide) rfl).1,
   ((c3_project_config_failures c3Env initialParserState c1Code
      { project := .vString "nf" } "nf" (.projectNotFound "nf") "not json" [] [] []
      { sourceFiles := [] } (.node "x" 0 0 [])
      { estree := .mk 0 "" none [], registry := [] }).2.2.2.1 rfl List.Forall₂.nil
     (by decide) rfl).2,
   (c3_project_config_failures c2Env initialParserState c1Code c3cOpts
      "cfg2" (.projectNotFound "nf") "not json" [] ["nonexistent"] []
      c2ProgB c2TreeB c3Cres).2.2.2.2 rfl List.Forall₂.nil (by decide) rfl rfl rfl⟩

/-- Well-formedness of the traversal state: registry handles are below the
fresh counters, each handle determines its entry uniquely in either
direction, and every registered generic node carries its own handle. -/
structure RegWF (st : ConvState) : Prop where
  bounds : ∀ e ∈ st.registry, e.gid < st.nextGid ∧ e.nid < st.nextNid
  gidInj : ∀ e1 ∈ st.registry, ∀ e2 ∈ st.registry, e1.gid = e2.gid → e1 = e2
  nidInj : ∀ e1 ∈ st.registry, ∀ e2 ∈ st.registry, e1.nid = e2.nid → e1 = e2
  handle : ∀ e ∈ st.registry, e.gnode.nodeId = e.gid

/-- Relation between the traversal states before and after converting a
subtree: counters only grow, old entries are kept, and new entries use
handles at or above the old counters. -/
structure StepOK (st st2 : ConvState) : Prop where
  gidLe : st.nextGid ≤ st2.nextGid
  nidLe : st.nextNid ≤ st2.nextNid
  keep : ∀ e ∈ st.registry, e ∈ st2.registry
  fresh : ∀ e ∈ st2.registry, e ∈ st.registry ∨ (st.nextGid ≤ e.gid ∧ st.nextNid ≤ e.nid)

theorem RegWF_init : RegWF { nextGid := 0, nextNid := 0, registry := [] } :=
  ⟨fun e he => absurd he (List.not_mem_nil e), fun e1 h1 => absurd h1 (List.not_mem_nil e1),
   fun e1 h1 => absurd h1 (List.not_mem_nil e1), fun e he => absurd he (List.not_mem_nil e)⟩

theorem RegWF_bump (st : ConvState) (h : RegWF st) :
    RegWF { st with nextGid := st.nextGid + 1, nextNid := st.nextNid + 1 } :=
  ⟨fun e he => ⟨Nat.lt_succ_of_lt (h.bounds e he).1, Nat.lt_succ_of_lt (h.bounds e he).2⟩,
   h.gidInj, h.nidInj, h.handle⟩

theorem RegWF_bumpGid (st : ConvState) (h : RegWF st) :
    RegWF { st with nextGid := st.nextGid + 1 } :=
  ⟨fun e he => ⟨Nat.lt_succ_of_lt (h.bounds e he).1, (h.bounds e he).2⟩,
   h.gidInj, h.nidInj, h.handle⟩

theorem StepOK_bumpGid (st st2 : ConvState) (h : StepOK st st2) :
    StepOK st { st2 with nextGid := st2.nextGid + 1 } :=
  ⟨Nat.le_succ_of_le h.gidLe, h.nidLe, h.keep, h.fresh⟩

/-- The common step of every builder: after bumping both counters and
converting the children, consing the freshly registered entry preserves
well-formedness and yields a valid step from the pre-node state. -/
theorem conv_step_core (st st2 : ConvState) (ent : RegEntry) (hwf : RegWF st)
    (hwf2 : RegWF st2)
    (hstep : StepOK { st with nextGid := st.nextGid + 1, nextNid := st.nextNid + 1 } st2)
    (hgid : ent.gid = st.nextGid) (hnid : ent.nid = st.nextNid)
    (hnode : ent.gnode.nodeId = ent.gid) :
    RegWF { st2 with registry := ent :: st2.registry } ∧
      StepOK st { st2 with registry := ent :: st2.registry } := by
  have hglt : st.nextGid < st2.nextGid := Nat.lt_of_lt_of_le (Nat.lt_succ_self _) hstep.gidLe
  have hnlt : st.nextNid < st2.nextNid := Nat.lt_of_lt_of_le (Nat.lt_succ_self _) hstep.nidLe
  have hsep : ∀ e ∈ st2.registry, e.gid ≠ ent.gid ∧ e.nid ≠ ent.nid := by
    intro e he
    rcases hstep.fresh e he with hold | ⟨hg, hn⟩
    · exact ⟨hgid ▸ Nat.ne_of_lt (hwf.bounds e hold).1,
        hnid ▸ Nat.ne_of_lt (hwf.bounds e hold).2⟩
    · constructor
      · rw [hgid]
        exact Nat.ne_of_gt (Nat.lt_of_succ_le hg)
      · rw [hnid]
        exact Nat.ne_of_gt (Nat.lt_of_succ_le hn)
  constructor
  · refine ⟨?_, ?_, ?_, ?_⟩
    · intro e he
      rcases List.mem_cons.mp he with rfl | he2
      · exact ⟨hgid ▸ hglt, hnid ▸ hnlt⟩
      · exact hwf2.bounds e he2
    · intro e1 h1 e2 h2 heq
      rcases List.mem_cons.mp h1 with rfl | h1' <;> rcases List.mem_cons.mp h2 with rfl | h2'
      · rfl
      · exact absurd heq.symm (hsep e2 h2').1
      · exact absurd heq (hsep e1 h1').1
      · exact hwf2.gidInj e1 h1' e2 h2' heq
    · intro e1 h1 e2 h2 heq
      rcases List.mem_cons.mp h1 with rfl | h1' <;> rcases List.mem_cons.mp h2 with rfl | h2'
      · rfl
      · exact absurd heq.symm (hsep e2 h2').2
      · exact absurd heq (hsep e1 h1').2
      · exact hwf2.nidInj e1 h1' e2 h2' heq
    · intro e he
      rcases List.mem_cons.mp he with rfl | he2
      · exact hnode
      · exact hwf2.handle e he2
  · refine ⟨Nat.le_of_lt hglt, Nat.le_of_lt hnlt, ?_, ?_⟩
    · intro e he
      exact List.mem_cons_of_mem ent (hstep.keep e he)
    · intro e he
      rcases List.mem_cons.mp he with rfl | he2
      · exact Or.inr ⟨Nat.le_of_eq hgid.symm, Nat.le_of_eq hnid.symm⟩
      · rcases hstep.fresh e he2 with hold | ⟨hg, hn⟩
        · exact Or.inl hold
        · exact Or.inr ⟨Nat.le_of_succ_le hg, Nat.le_of_succ_le hn⟩

mutual

/-- Converting one node from a well-formed state yields a well-formed
state reached by a valid step. -/
theorem convertNode_wf (extra : Extra) :
    ∀ (n : NativeNode) (st : ConvState) (g : GenericNode) (st2 : ConvState),
      RegWF st → convertNode extra n st = .ok (g, st2) → RegWF st2 ∧ StepOK st st2
  | .node kind pos endPos children, st, g, st2 => by
    intro hwf h
    simp only [convertNode] at h
    cases hguard : (!(knownKinds.contains kind) && extra.errorOnUnknownASTType) with
    | true =>
      rw [hguard] at h
      simp at h
    | false =>
      rw [hguard] at h
      simp only [Bool.false_eq_true, if_false] at h
      cases hl : convertList extra children
          { st with nextGid := st.nextGid + 1, nextNid := st.nextNid + 1 } with
      | error e =>
        rw [hl] at h
        simp at h
      | ok pr =>
        obtain ⟨gchildren, stc⟩ := pr
        rw [hl] at h
        obtain ⟨hwfc, hstepc⟩ :=
          convertList_wf extra children _ gchildren stc (RegWF_bump st hwf) hl
        have hcore := conv_step_core st stc
          { gid := st.nextGid, nid := st.nextNid
            gnode := .mk st.nextGid (if knownKinds.contains kind then mapKind kind else kind)
              (if extra.range then some (pos, endPos) else none) gchildren
            nnode := .node kind pos endPos children }
          hwf hwfc hstepc rfl rfl rfl
        cases hwrap : syntheticWrapKinds.contains kind with
        | true =>
          rw [hwrap] at h
          simp only [if_true] at h
          injection h with h
          injection h with hg hst
          subst hst
          exact ⟨RegWF_bumpGid _ hcore.1, StepOK_bumpGid _ _ hcore.2⟩
        | false =>
          rw [hwrap] at h
          simp only [Bool.false_eq_true, if_false] at h
          injection h with h
          injection h with hg hst
          subst hst
          exact hcore

/-- Converting a child list from a well-formed state yields a well-formed
state reached by a valid step. -/
theorem convertList_wf (extra : Extra) :
    ∀ (ns : List NativeNode) (st : ConvState) (gs : List GenericNode) (st2 : ConvState),
      RegWF st → convertList extra ns st = .ok (gs, st2) → RegWF st2 ∧ StepOK st st2
  | [], st, gs, st2 => by
    intro hwf h
    simp only [convertList] at h
    injection h with h
    injection h with hg hst
    subst hst
    exact ⟨hwf, Nat.le_refl _, Nat.le_refl _, fun e he => he, fun e he => Or.inl he⟩
  | n :: ns, st, gs, st2 => by
    intro hwf h
    simp only [convertList] at h
    split at h
    · exact absurd h (by simp)
    · rename_i g1 stA hn
      split at h
      · exact absurd h (by simp)
      · rename_i gs2 stB hns
        injection h with h
        injection h with hg hst
        subst hst
        obtain ⟨hwfA, hstepA⟩ := convertNode_wf extra n st g1 stA hwf hn
        obtain ⟨hwfB, hstepB⟩ := convertList_wf extra ns stA gs2 stB hwfA hns
        refine ⟨hwfB, Nat.le_trans hstepA.gidLe hstepB.gidLe,
          Nat.le_trans hstepA.nidLe hstepB.nidLe,
          fun e he => hstepB.keep e (hstepA.keep e he), ?_⟩
        intro e he
        rcases hstepB.fresh e he with hmid | ⟨hg2, hn2⟩
        · rcases hstepA.fresh e hmid with hold | ⟨hg1, hn1⟩
          · exact Or.inl hold
          · exact Or.inr ⟨hg1, hn1⟩
        · exact Or.inr ⟨Nat.le_trans hstepA.gidLe hg2, Nat.le_trans hstepA.nidLe hn2⟩

end

/-- With generic handles unique in the registry, lookup by an entry's
handle returns exactly that entry. -/
theorem find_gid_eq : ∀ (reg : List RegEntry) (e : RegEntry), e ∈ reg →
    (∀ e1 ∈ reg, ∀ e2 ∈ reg, e1.gid = e2.gid → e1 = e2) →
    esTreeNodeToTSNode reg e.gid = some e
  | [], e, he, _ => absurd he (List.not_mem_nil e)
  | a :: tl, e, he, hinj => by
    simp only [esTreeNodeToTSNode, List.find?]
    cases hcmp : (a.gid == e.gid) with
    | true =>
      have ha : a = e := hinj a (List.mem_cons_self a tl) e he (eq_of_beq hcmp)
      rw [ha]
    | false =>
      have hetl : e ∈ tl := by
        rcases List.mem_cons.mp he with hh | hh
        · subst hh
          simp at hcmp
        · exact hh
      have := find_gid_eq tl e hetl
        (fun e1 h1 e2 h2 => hinj e1 (List.mem_cons_of_mem a h1) e2 (List.mem_cons_of_mem a h2))
      simpa [esTreeNodeToTSNode] using this

/-- With native handles unique in the registry, lookup by an entry's
handle returns exactly that entry. -/
theorem find_nid_eq : ∀ (reg : List RegEntry) (e : RegEntry), e ∈ reg →
    (∀ e1 ∈ reg, ∀ e2 ∈ reg, e1.nid = e2.nid → e1 = e2) →
    tsNodeToESTreeNode reg e.nid = some e
  | [], e, he, _ => absurd he (List.not_mem_nil e)
  | a :: tl, e, he, hinj => by
    simp only [tsNodeToESTreeNode, List.find?]
    cases hcmp : (a.nid == e.nid) with
    | true =>
      have ha : a = e := hinj a (List.mem_cons_self a tl) e he (eq_of_beq hcmp)
      rw [ha]
    | false =>
      have hetl : e ∈ tl := by
        rcases List.mem_cons.mp he with hh | hh
        · subst hh
          simp at hcmp
        · exact hh
      have := find_nid_eq tl e hetl
        (fun e1 h1 e2 h2 => hinj e1 (List.mem_cons_of_mem a h1) e2 (List.mem_cons_of_mem a h2))
      simpa [tsNodeToESTreeNode] using this

/-- C4: identity round-trip of the Node Correspondence Registry.  Every
pair registered during a successful conversion — i.e. every non-synthetic
generic node together with the native node it was built from — satisfies
both round trips: looking the generic node's identity up in the
generic-to-native map returns exactly its entry (hence its native node),
and looking the native node's identity up in the native-to-generic map
returns exactly the same entry (hence the same generic node); moreover the
registered generic node carries its own map key. -/
theorem c4_registry_roundtrip (ast : NativeNode) (extra : Extra) (res : ConvertResult)
    (h : convert ast extra = .ok res) (e : RegEntry) (he : e ∈ res.registry) :
    esTreeNodeToTSNode res.registry e.gid = some e ∧
      tsNodeToESTreeNode res.registry e.nid = some e ∧
      e.gnode.nodeId = e.gid := by
  cases hc : convertNode extra ast { nextGid := 0, nextNid := 0, registry := [] } with
  | error e2 =>
    simp only [convert, hc] at h
    exact absurd h (by simp)
  | ok pr =>
    obtain ⟨g, stf⟩ := pr
    simp only [convert, hc] at h
    injection h with h
    subst h
    obtain ⟨hwf2, _⟩ := convertNode_wf extra ast _ g stf RegWF_init hc
    exact ⟨find_gid_eq stf.registry e he hwf2.gidInj,
      find_nid_eq stf.registry e he hwf2.nidInj, hwf2.handle e he⟩

/-- A native tree for the C4 witness containing an `ExportDeclaration`,
whose builder emits an unregistered synthetic wrapper, so generic and
native handles drift apart. -/
def c4Ast : NativeNode :=
  .node "SourceFile" 0 10 [.node "ExportDeclaration" 0 9 [.node "Identifier" 7 8 []]]

/-- The conversion result of the C4 witness tree. -/
def c4Res : ConvertResult :=
  (convert c4Ast resetExtra).toOption.getD { estree := .mk 0 "" none [], registry := [] }

/-- The registered entry of the `ExportDeclaration` node. -/
def c4Entry : RegEntry :=
  { gid := 1
    nid := 1
    gnode := .mk 1 "ExportDeclaration" none [.mk 2 "Identifier" none []]
    nnode := .node "ExportDeclaration" 0 9 [.node "Identifier" 7 8 []] }

/-- C4 witness: the round trip at the concrete `ExportDeclaration`
entry. -/
theorem c4_registry_roundtrip_witness :
    c4Entry ∈ c4Res.registry ∧
      esTreeNodeToTSNode c4Res.registry c4Entry.gid = some c4Entry ∧
      tsNodeToESTreeNode c4Res.registry c4Entry.nid = some c4Entry :=
  ⟨by decide,
   (c4_registry_roundtrip c4Ast resetExtra c4Res rfl c4Entry (by decide)).1,
   (c4_registry_roundtrip c4Ast resetExtra c4Res rfl c4Entry (by decide)).2.1⟩

theorem exists_ok_of_isOk {ε α : Type} {x : Except ε α} (h : x.isOk = true) :
    ∃ v, x = .ok v := by
  cases x with
  | error e => simp [Except.isOk, Except.toBool] at h
  | ok v => exact ⟨v, rfl⟩

mutual

/-- Conversion of a node succeeds exactly when the strict-unknown-kind
flag is off or the subtree contains no unknown kind. -/
theorem convertNode_isOk (extra : Extra) :
    ∀ (n : NativeNode) (st : ConvState),
      (convertNode extra n st).isOk
        = !(extra.errorOnUnknownASTType && containsUnknownKind n)
  | .node kind pos endPos children, st => by
    have ih := convertList_isOk extra children
      { st with nextGid := st.nextGid + 1, nextNid := st.nextNid + 1 }
    simp only [convertNode, containsUnknownKind]
    cases hguard : (!(knownKinds.contains kind) && extra.errorOnUnknownASTType) with
    | true =>
      rw [Bool.and_eq_true] at hguard
      obtain ⟨hnk, hf⟩ := hguard
      have hk : knownKinds.contains kind = false := by
        cases hkk : knownKinds.contains kind
        · rfl
        · rw [hkk] at hnk
          simp at hnk
      rw [hf, hk]
      rfl
    | false =>
      cases hl : convertList extra children
          { st with nextGid := st.nextGid + 1, nextNid := st.nextNid + 1 } with
      | error e =>
        rw [hl] at ih
        have hx : (extra.errorOnUnknownASTType && containsUnknownKindList children) = true := by
          cases hxx : (extra.errorOnUnknownASTType && containsUnknownKindList children)
          · rw [hxx] at ih
            simp [Except.isOk, Except.toBool] at ih
          · rfl
        rw [Bool.and_eq_true] at hx
        obtain ⟨hf, hcu⟩ := hx
        rw [hf, hcu, Bool.or_true]
        rfl
      | ok pr =>
        obtain ⟨gch, st2⟩ := pr
        rw [hl] at ih
        have hx : (extra.errorOnUnknownASTType && containsUnknownKindList children) = false := by
          cases hxx : (extra.errorOnUnknownASTType && containsUnknownKindList children)
          · rfl
          · rw [hxx] at ih
            simp [Except.isOk, Except.toBool] at ih
        have hall : (extra.errorOnUnknownASTType
            && (!(knownKinds.contains kind) || containsUnknownKindList children)) = false := by
          cases hflag : extra.errorOnUnknownASTType
          · exact Bool.false_and _
          · rw [hflag] at hx hguard
            rw [Bool.true_and] at hx
            rw [Bool.and_true] at hguard
            rw [Bool.true_and, hx, Bool.or_false]
            exact hguard
        rw [hall]
        cases hw : syntheticWrapKinds.contains kind
        · rfl
        · rfl

/-- Conversion of a child list succeeds exactly when the flag is off or no
child subtree contains an unknown kind. -/
theorem convertList_isOk (extra : Extra) :
    ∀ (ns : List NativeNode) (st : ConvState),
      (convertList extra ns st).isOk
        = !(extra.errorOnUnknownASTType && containsUnknownKindList ns)
  | [], st => by
    simp only [convertList, containsUnknownKindList, Bool.and_false]
    rfl
  | n :: ns, st => by
    have ihn := convertNode_isOk extra n st
    simp only [convertList, containsUnknownKindList]
    cases hn : convertNode extra n st with
    | error e =>
      rw [hn] at ihn
      have hx : (extra.errorOnUnknownASTType && containsUnknownKind n) = true := by
        cases hxx : (extra.errorOnUnknownASTType && containsUnknownKind n)
        · rw [hxx] at ihn
          simp [Except.isOk, Except.toBool] at ihn
        · rfl
      rw [Bool.and_eq_true] at hx
      obtain ⟨hf, hcu⟩ := hx
      rw [hf, hcu]
      rfl
    | ok pr =>
      obtain ⟨g1, stA⟩ := pr
      have ihs := convertList_isOk extra ns stA
      rw [hn] at ihn
      have hx1 : (extra.errorOnUnknownASTType && containsUnknownKind n) = false := by
        cases hxx : (extra.errorOnUnknownASTType && containsUnknownKind n)
        · rfl
        · rw [hxx] at ihn
          simp [Except.isOk, Except.toBool] at ihn
      show (match convertList extra ns stA with
            | Except.error e => (Except.error e : Except ParseErr (List GenericNode × ConvState))
            | Except.ok (gs, st2) => Except.ok (g1 :: gs, st2)).isOk
          = !(extra.errorOnUnknownASTType
              && (containsUnknownKind n || containsUnknownKindList ns))
      cases hls : convertList extra ns stA with
      | error e =>
        rw [hls] at ihs
        have hx2 : (extra.errorOnUnknownASTType && containsUnknownKindList ns) = true := by
          cases hxx : (extra.errorOnUnknownASTType && containsUnknownKindList ns)
          · rw [hxx] at ihs
            simp [Except.isOk, Except.toBool] at ihs
          · rfl
        rw [Bool.and_eq_true] at hx2
        obtain ⟨hf, hcus⟩ := hx2
        rw [hf, hcus, Bool.or_true]
        rfl
      | ok pr2 =>
        obtain ⟨gs2, stB⟩ := pr2
        have hall : (extra.errorOnUnknownASTType
            && (containsUnknownKind n || containsUnknownKindList ns)) = false := by
          cases hflag : extra.errorOnUnknownASTType
          · exact Bool.false_and _
          · rw [hflag] at hx1
            rw [Bool.true_and] at hx1
            rw [hls] at ihs
            have hx2 : containsUnknownKindList ns = false := by
              cases hxx : containsUnknownKindList ns
              · rfl
              · rw [hflag, hxx] at ihs
                simp [Except.isOk, Except.toBool] at ihs
            rw [Bool.true_and, hx1, hx2]
            rfl
        rw [hall]
        rfl

end

/-- Is this error the conversion-stage `UnsupportedNodeKind`? -/
def isUnsupportedKindErr : ParseErr → Bool
  | .unsupportedNodeKind _ => true
  | _ => false

mutual

/-- The only failure conversion of a node can produce is
`UnsupportedNodeKind`. -/
theorem convertNode_error_unsupported (extra : Extra) :
    ∀ (n : NativeNode) (st : ConvState) (e : ParseErr),
      convertNode extra n st = .error e → isUnsupportedKindErr e = true
  | .node kind pos endPos children, st, e => by
    intro h
    simp only [convertNode] at h
    cases hguard : (!(knownKinds.contains kind) && extra.errorOnUnknownASTType) with
    | true =>
      rw [hguard] at h
      simp only [if_true] at h
      injection h with h
      subst h
      rfl
    | false =>
      rw [hguard] at h
      simp only [Bool.false_eq_true, if_false] at h
      split at h
      · rename_i e1 heq
        injection h with h
        subst h
        exact convertList_error_unsupported extra children _ _ heq
      · rename_i gch st2 heq
        cases hw : syntheticWrapKinds.contains kind
        · rw [hw] at h
          simp at h
        · rw [hw] at h
          simp at h

/-- The only failure conversion of a child list can produce is
`UnsupportedNodeKind`. -/
theorem convertList_error_unsupported (extra : Extra) :
    ∀ (ns : List NativeNode) (st : ConvState) (e : ParseErr),
      convertList extra ns st = .error e → isUnsupportedKindErr e = true
  | [], st, e => by
    intro h
    simp only [convertList] at h
    exact absurd h (by simp)
  | n :: ns, st, e => by
    intro h
    simp only [convertList] at h
    split at h
    · rename_i e1 heq
      injection h with h
      subst h
      exact convertNode_error_unsupported extra n _ _ heq
    · rename_i g1 stA heq
      split at h
      · rename_i e1 heq2
        injection h with h
        subst h
        exact convertList_error_unsupported extra ns _ _ heq2
      · rename_i gs2 stB heq2
        exact absurd h (by simp)

end

/-- An unknown-kind node under the non-strict policy converts to a
passthrough generic node whose `type` field is the original native kind
name. -/
theorem convertNode_passthrough (extra : Extra) (kind : String) (pos endPos : Nat)
    (children : List NativeNode) (st : ConvState)
    (hk : knownKinds.contains kind = false)
    (hf : extra.errorOnUnknownASTType = false) :
    (convertNode extra (.node kind pos endPos children) st).map (fun p => p.1.type)
      = .ok kind := by
  have hguard : (!(knownKinds.contains kind) && extra.errorOnUnknownASTType) = false := by
    rw [hf]
    exact Bool.and_false _
  have hlok : (convertList extra children
      { st with nextGid := st.nextGid + 1, nextNid := st.nextNid + 1 }).isOk = true := by
    rw [convertList_isOk, hf]
    rfl
  obtain ⟨⟨gch, st2⟩, hl⟩ := exists_ok_of_isOk hlok
  have hw : syntheticWrapKinds.contains kind = false := by
    cases hww : syntheticWrapKinds.contains kind
    · rfl
    · exfalso
      have hmem : kind ∈ syntheticWrapKinds := List.mem_of_elem_eq_true hww
      have hkk : kind = "ExportDeclaration" := by
        simpa [syntheticWrapKinds] using hmem
      subst hkk
      exact absurd hk (by decide)
  simp only [convertNode, hk, hf, hl, hw, Bool.and_false, Bool.false_eq_true, if_false,
    Except.map, GenericNode.type]

/-- C5: the unknown-kind policy.  Conversion fails exactly when the
strict flag is set and the tree contains a kind with no registered
builder; any conversion failure is an `UnsupportedNodeKind` error; an
unknown-kind root fails fast with `UnsupportedNodeKind` of that very kind
under the flag; and without the flag it converts to a passthrough node
whose `type` carries the original native kind name, the conversion
completing without error. -/
theorem c5_unknown_kind_policy (extra : Extra) (ast : NativeNode) (kind : String)
    (pos endPos : Nat) (children : List NativeNode) :
    ((convert ast extra).isOk
      = !(extra.errorOnUnknownASTType && containsUnknownKind ast)) ∧
    (∀ e : ParseErr, convert ast extra = .error e → isUnsupportedKindErr e = true) ∧
    (knownKinds.contains kind = false → extra.errorOnUnknownASTType = true →
      convert (.node kind pos endPos children) extra
        = .error (.unsupportedNodeKind kind)) ∧
    (knownKinds.contains kind = false → extra.errorOnUnknownASTType = false →
      (convert (.node kind pos endPos children) extra).map (fun r => r.estree.type)
        = .ok kind) := by
  refine ⟨?_, ?_, ?_, ?_⟩
  · cases hc : convertNode extra ast { nextGid := 0, nextNid := 0, registry := [] } with
    | error e =>
      have := convertNode_isOk extra ast { nextGid := 0, nextNid := 0, registry := [] }
      rw [hc] at this
      simp only [convert, hc]
      exact this
    | ok pr =>
      obtain ⟨g, stf⟩ := pr
      have := convertNode_isOk extra ast { nextGid := 0, nextNid := 0, registry := [] }
      rw [hc] at this
      simp only [convert, hc]
      exact this
  · intro e h
    cases hc : convertNode extra ast { nextGid := 0, nextNid := 0, registry := [] } with
    | error e1 =>
      simp only [convert, hc] at h
      injection h with h
      subst h
      exact convertNode_error_unsupported extra ast _ _ hc
    | ok pr =>
      obtain ⟨g, stf⟩ := pr
      simp only [convert, hc] at h
      exact absurd h (by simp)
  · intro hk hf
    have hguard : (!(knownKinds.contains kind) && extra.errorOnUnknownASTType) = true := by
      rw [hk, hf]
      rfl
    simp only [convert, convertNode, hguard, if_true]
  · intro hk hf
    have hpass := convertNode_passthrough extra kind pos endPos children
      { nextGid := 0, nextNid := 0, registry := [] } hk hf
    cases hc : convertNode extra (.node kind pos endPos children)
        { nextGid := 0, nextNid := 0, registry := [] } with
    | error e =>
      rw [hc] at hpass
      exact absurd hpass (by simp [Except.map])
    | ok pr =>
      obtain ⟨g, stf⟩ := pr
      rw [hc] at hpass
      simp only [Except.map] at hpass
      injection hpass with hpass
      simp only [convert, hc, Except.map]
      exact congrArg Except.ok hpass

/-- C5 witness: a tree containing the unregistered kind `"FancyNewKind"`
fails under the strict flag with `UnsupportedNodeKind` and converts to a
passthrough node carrying `"FancyNewKind"` without it. -/
theorem c5_unknown_kind_policy_witness :
    (convert (.node "SourceFile" 0 5 [.node "FancyNewKind" 0 4 []])
        { resetExtra with errorOnUnknownASTType := true }).isOk = false ∧
      convert (.node "FancyNewKind" 0 4 []) { resetExtra with errorOnUnknownASTType := true }
        = .error (.unsupportedNodeKind "FancyNewKind") ∧
      (convert (.node "FancyNewKind" 0 4 []) resetExtra).map (fun r => r.estree.type)
        = .ok "FancyNewKind" :=
  ⟨by
    rw [(c5_unknown_kind_policy { resetExtra with errorOnUnknownASTType := true }
      (.node "SourceFile" 0 5 [.node "FancyNewKind" 0 4 []]) "FancyNewKind" 0 4 []).1]
    rfl,
   (c5_unknown_kind_policy { resetExtra with errorOnUnknownASTType := true }
      (.node "FancyNewKind" 0 4 []) "FancyNewKind" 0 4 []).2.2.1 (by decide) rfl,
   (c5_unknown_kind_policy resetExtra
      (.node "FancyNewKind" 0 4 []) "FancyNewKind" 0 4 []).2.2.2 (by decide) rfl⟩

end TSEstree
